import Mathlib

/-!
# Verification of the DADB metadata engine against its specification

This file shallowly embeds the parts of the `dadb` repository that the
claims concern:

* the content-addressed data store and the transaction facade
  (`insert_data` / `get_data` / `begin_transaction` / `end_transaction` /
  `rollback_transaction`), whose implementation module is not part of the
  source tree here and is therefore modelled from the specification text;
* the schema constants and the timeline view builder, translated from
  `src/dadb/_schema.py` (`validname`, `timeline_fields`,
  `create_timeline_view`, `_modeltimeline_subquery`).

Bytes are modelled as `List Nat`; SQL statements are modelled as the strings
the code builds; executing DDL against the connection is modelled by a small
explicit state (current view, transaction flag, statement trace).
-/

namespace Dadb

/-! ## The content store (modelled from the spec, section "Data Store") -/

/-- Modelled from the spec: `BLOCKSIZE = 50 MiB` (per-block target size);
the data-store module itself is not under `src/`, only its tests are. -/
def BLOCKSIZE : Nat := 50 * 1024 * 1024

/-- Modelled from the spec: the sha256 digest of a payload.  The concrete
hash function is external to the repository; it is abstracted by an
injective stand-in (the identity on byte lists), which models an ideal
collision-free digest. -/
def sha256 (bs : List Nat) : List Nat := bs

/-- Modelled from the spec: the sha1 digest, abstracted like `sha256`. -/
def sha1 (bs : List Nat) : List Nat := bs

/-- Modelled from the spec: the md5 digest, abstracted like `sha256`. -/
def md5 (bs : List Nat) : List Nat := bs

/-- Fuel-driven splitting of a byte list into `BLOCKSIZE`-slices.  The fuel
is an upper bound on the number of remaining bytes, so that the definition
is structurally recursive and evaluates inside the kernel. -/
def chunksAux : Nat → List Nat → List (List Nat)
  | _, [] => []
  | 0, _ :: _ => []
  | fuel + 1, a :: as => ((a :: as).take BLOCKSIZE) :: chunksAux fuel ((a :: as).drop BLOCKSIZE)

/-- Modelled from the spec: the `BLOCKSIZE`-slices of a payload, in order. -/
def chunks (s : List Nat) : List (List Nat) := chunksAux s.length s

/-- A row of the `block` table: `{id, sha1, size, data}`. -/
structure Block where
  id : Nat
  sha1 : List Nat
  size : Nat
  data : List Nat
deriving DecidableEq, Repr

/-- A row of the `data` table: `{id, md5, sha1, sha256, size, stored}`. -/
structure DataRow where
  id : Nat
  md5 : List Nat
  sha1 : List Nat
  sha256 : List Nat
  size : Nat
  stored : Bool
deriving DecidableEq, Repr

/-- A row of the `blockmap` table: `{dataid, blkid, offset}`. -/
structure BlockmapRow where
  dataid : Nat
  blkid : Nat
  offset : Nat
deriving DecidableEq, Repr

/-- The three content tables of a repository, plus the autoincrement
counters that produce fresh primary keys. -/
structure Store where
  datas : List DataRow
  blocks : List Block
  blockmap : List BlockmapRow
  nextDataId : Nat
  nextBlkId : Nat
deriving DecidableEq, Repr

/-- A freshly created repository's content tables. -/
def emptyStore : Store := ⟨[], [], [], 1, 1⟩

/-- Look a block up by its primary key. -/
def findBlock (blocks : List Block) (i : Nat) : Option Block :=
  blocks.find? (fun b => b.id == i)

/-- Insert a blockmap row into a list sorted by offset. -/
def insertRow (r : BlockmapRow) : List BlockmapRow → List BlockmapRow
  | [] => [r]
  | x :: xs => if r.offset ≤ x.offset then r :: x :: xs else x :: insertRow r xs

/-- Sort blockmap rows by offset (insertion sort). -/
def sortRows : List BlockmapRow → List BlockmapRow
  | [] => []
  | x :: xs => insertRow x (sortRows xs)

/-- Resolve each blockmap row of a sorted run to its block's payload;
`none` when a referenced block is missing. -/
def mapOpt (f : BlockmapRow → Option (List Nat)) : List BlockmapRow → Option (List (List Nat))
  | [] => some []
  | r :: rs =>
    match f r, mapOpt f rs with
    | some a, some as => some (a :: as)
    | _, _ => none

/-- Modelled from the spec: reconstruct a data object's bytes from its
blockmap rows in `offset` order, concatenating the referenced blocks. -/
def readData (st : Store) (i : Nat) : Option (List Nat) :=
  let rows := sortRows (st.blockmap.filter (fun m => m.dataid == i))
  Option.map List.flatten
    (mapOpt (fun r => Option.map (fun b => b.data) (findBlock st.blocks r.blkid)) rows)

/-- Modelled from the spec: store the `BLOCKSIZE`-slices of a payload for
data object `did`, starting at byte offset `off`: a slice whose `sha1` and
size match an existing `block` row reuses that row, otherwise a new block
row is inserted; either way a `(dataid, blkid, offset)` row is appended to
`blockmap`. -/
def storeChunks : Store → Nat → Nat → List (List Nat) → Store
  | st, _, _, [] => st
  | st, did, off, c :: cs =>
    match st.blocks.find? (fun b => b.sha1 == sha1 c && b.size == c.length) with
    | some b =>
      storeChunks { st with blockmap := st.blockmap ++ [⟨did, b.id, off⟩] } did (off + c.length) cs
    | none =>
      storeChunks { st with
          blocks := st.blocks ++ [⟨st.nextBlkId, sha1 c, c.length, c⟩],
          nextBlkId := st.nextBlkId + 1,
          blockmap := st.blockmap ++ [⟨did, st.nextBlkId, off⟩] } did (off + c.length) cs

/-- Modelled from the spec: `insert_data(stream) → id`.  If a `data` row
with matching `sha256` already exists with `stored=1`, its id is returned
without re-inserting blocks; otherwise the payload's slices are stored and
a new `data` row with the payload's hashes and size is appended. -/
def insert_data (st : Store) (s : List Nat) : Nat × Store :=
  match st.datas.find? (fun r => r.sha256 == sha256 s && r.stored) with
  | some r => (r.id, st)
  | none =>
    let did := st.nextDataId
    let st1 := storeChunks { st with nextDataId := st.nextDataId + 1 } did 0 (chunks s)
    (did, { st1 with datas := st1.datas ++ [⟨did, md5 s, sha1 s, sha256 s, s.length, true⟩] })

/-- The errors of the engine that the claims mention. -/
inductive DadbError where
  | noSuchDataObject
  | dataNotStored
  | valueError (msg : String)
deriving DecidableEq, Repr

instance exceptDecEq {ε α : Type} [DecidableEq ε] [DecidableEq α] :
    DecidableEq (Except ε α) := fun a b =>
  match a, b with
  | .ok x, .ok y => if h : x = y then .isTrue (by rw [h]) else .isFalse (by simp [h])
  | .error x, .error y => if h : x = y then .isTrue (by rw [h]) else .isFalse (by simp [h])
  | .ok _, .error _ => .isFalse (by simp)
  | .error _, .ok _ => .isFalse (by simp)

/-- Modelled from the spec: the seek/read handle returned by `get_data`;
`length` equals `data.size` and `read` is the full reconstructed payload. -/
structure DataHandle where
  sha256 : List Nat
  length : Nat
  read : List Nat
deriving DecidableEq, Repr

/-- Modelled from the spec: `get_data(id) → DataHandle`, failing with
`NoSuchDataObjectError` when the id is absent and failing on a
metadata-only object whose blocks are not attached. -/
def get_data (st : Store) (i : Nat) : Except DadbError DataHandle :=
  match st.datas.find? (fun r => r.id == i) with
  | none => Except.error DadbError.noSuchDataObject
  | some r =>
    if r.stored then
      match readData st r.id with
      | some bs => Except.ok ⟨r.sha256, r.size, bs⟩
      | none => Except.error DadbError.dataNotStored
    else Except.error DadbError.dataNotStored

/-- A stored `data` row reconstructs to bytes whose digest and length match
the row's recorded `sha256` and `size`. -/
def storedRowOK (st : Store) (r : DataRow) : Bool :=
  match readData st r.id with
  | some bs => r.sha256 == sha256 bs && r.size == bs.length
  | none => false

/-- The block tables are consistent: ids are fresh below the counter and
pairwise distinct, and each row's `sha1` and `size` describe its payload. -/
def BlocksOK (st : Store) : Prop :=
  (∀ b ∈ st.blocks, b.id < st.nextBlkId) ∧
  (∀ b ∈ st.blocks, b.sha1 = sha1 b.data ∧ b.size = b.data.length) ∧
  st.blocks.Pairwise (fun a b => a.id ≠ b.id)

/-- Well-formedness of a store (the spec's content-store invariants). -/
def WF (st : Store) : Prop :=
  (∀ r ∈ st.datas, r.id < st.nextDataId) ∧
  st.datas.Pairwise (fun a b => a.id ≠ b.id) ∧
  BlocksOK st ∧
  (∀ m ∈ st.blockmap, m.dataid < st.nextDataId) ∧
  (∀ r ∈ st.datas, r.stored = true → storedRowOK st r = true)

instance (st : Store) : Decidable (BlocksOK st) := by
  unfold BlocksOK; infer_instance

instance (st : Store) : Decidable (WF st) := by
  unfold WF; infer_instance

/-! ## The transaction facade (modelled from the spec, section
"Transaction Facade"): the backend holds a single active transaction; the
pre-transaction store is snapshotted so a rollback can restore it. -/

/-- Modelled from the spec: a repository handle's mutable state — the
current (pending) content store plus the snapshot taken when the single
backend transaction was begun (`none` = no active transaction). -/
structure DBState where
  store : Store
  snapshot : Option Store
deriving DecidableEq, Repr

/-- Modelled from the spec: `begin_transaction()` returns true if it
started one, false if one was already active. -/
def begin_transaction (st : DBState) : Bool × DBState :=
  match st.snapshot with
  | some _ => (false, st)
  | none => (true, { st with snapshot := some st.store })

/-- Modelled from the spec: `end_transaction()` commits the active
transaction, making the pending store durable. -/
def end_transaction (st : DBState) : DBState :=
  { st with snapshot := none }

/-- Modelled from the spec: `rollback_transaction()` unconditionally rolls
back the outermost transaction and returns whether one was active. -/
def rollback_transaction (st : DBState) : Bool × DBState :=
  match st.snapshot with
  | some s => (true, ⟨s, none⟩)
  | none => (false, st)

/-- `Database.insert_data` acting on the handle's pending store. -/
def db_insert_data (st : DBState) (s : List Nat) : Nat × DBState :=
  let p := insert_data st.store s
  (p.1, { st with store := p.2 })

/-- `Database.get_data` reading the handle's pending store. -/
def db_get_data (st : DBState) (i : Nat) : Except DadbError DataHandle :=
  get_data st.store i

/-! ## Schema constants, from `src/dadb/_schema.py` -/

/-- `SCHEMAVERSION = 3` in `_schema.py`. -/
def SCHEMAVERSION : Nat := 3

/-- `ENUMTBLNAME` in `_schema.py`. -/
def ENUMTBLNAME : String := "_enum_"

/-- `MODELTBLNAME` in `_schema.py`. -/
def MODELTBLNAME : String := "_model_"

/-- `FIELDTBLNAME` in `_schema.py`. -/
def FIELDTBLNAME : String := "_field_"

/-- `MAPTBLNAME` in `_schema.py`. -/
def MAPTBLNAME : String := "_maptable_"

/-- `PROPTBLNAME` in `_schema.py`. -/
def PROPTBLNAME : String := "_proptable_"

/-- The name of the `_reserved_` table in `_schema.py`. -/
def RESERVEDTBLNAME : String := "_reserved_"

/-- `_operational_tables_` of `_schema.py`: the 5 operational tables, by
name and in source order. -/
def operationalTableNames : List String :=
  [ENUMTBLNAME, MODELTBLNAME, FIELDTBLNAME, MAPTBLNAME, PROPTBLNAME]

/-- `_data_tables_` of `_schema.py`: the 3 data tables, by (unprefixed)
name and in source order. -/
def dataTableNames : List String := ["data", "block", "blockmap"]

/-- Replace every occurrence of the character `c` by `r`. -/
def replaceChar (c r : Char) (s : String) : String :=
  String.mk (s.data.map (fun x => if x = c then r else x))

/-- `validname` of `_schema.py`: rewrite `.` and `+` to `_` and prepend
the repository prefix. -/
def validname (name pfx : String) : String :=
  pfx ++ replaceChar '+' '_' (replaceChar '.' '_' name)

/-! ## The database handle surface needed by claim C4 (modelled from the
spec: the `Database` lifecycle lives in `_database.py`, which is not under
`src/`; the table and datatype name lists come from `_schema.py` and the
spec's closed datatype set). -/

/-- Modelled from the spec: the closed, ordered datatype set of the
Datatype Registry. -/
def datatypeNames : List String :=
  ["Datetime", "Date", "Integer", "String", "Bytes", "Bool", "TimeDelta", "Float", "NULL", "Data"]

/-- Modelled from the spec: the API version recorded in `_reserved_`
(its concrete value is irrelevant to the claims). -/
def APIVERSION : Nat := 1

/-- The single row of the `_reserved_` table (shape from `_schema.py`). -/
structure ReservedRow where
  pkey_ : String
  schemaversion : Nat
  apiversion : Nat
  prefix_ : String
  timeline_blacklist : String
deriving DecidableEq, Repr

/-- Modelled from the spec: what survives in the repository file across
close/load — the `_reserved_` row recording the creation-time choices. -/
structure DbFile where
  reserved : ReservedRow
deriving DecidableEq, Repr

/-- Modelled from the spec: the attribute surface of a `Database` handle
used by the claims (`prefix`, `pkey`, `tables`, `datatypes`). -/
structure Database where
  pfx : String
  pkey : String
  tables : List String
  datatypes : List String
  models : List String
  enums : List String
deriving DecidableEq, Repr

/-- The enumeration order of a handle's tables: the `_reserved_` table,
the operational tables, then the prefixed data tables. -/
def allTableNames (pfx : String) : List String :=
  RESERVEDTBLNAME :: operationalTableNames ++ dataTableNames.map (fun n => validname n pfx)

/-- Modelled from the spec: `Database.create()` with the default prefix
`"x"` and pkey `"id"`, seeding the `_reserved_` row. -/
def Database.create : Database × DbFile :=
  (⟨"x", "id", allTableNames "x", datatypeNames, [], []⟩,
   ⟨⟨"id", SCHEMAVERSION, APIVERSION, "x", ""⟩⟩)

/-- Modelled from the spec: closing a handle leaves only the repository
file. -/
def Database.close (f : DbFile) : DbFile := f

/-- Modelled from the spec: `Database.load()` re-reads the `_reserved_`
row and rebuilds the handle from the recorded prefix and pkey. -/
def Database.load (f : DbFile) : Database :=
  ⟨f.reserved.prefix_, f.reserved.pkey_, allTableNames f.reserved.prefix_, datatypeNames, [], []⟩

/-! ## The timeline engine, from `src/dadb/_schema.py` -/

/-- A row of the `_fieldinfo_` view as consumed by the timeline builder
(`modelname_`, `modeltable_`, `fieldname_`, `columnname_`, `datatype_`,
`preview_`).  `datatype_` is `none` for a NULL entry and `preview_` is
`none` for a NULL preview flag. -/
structure FieldInfo where
  modelname_ : String
  modeltable_ : String
  fieldname_ : String
  columnname_ : String
  datatype_ : Option String
  preview_ : Option Int
deriving DecidableEq, Repr

/-- The database surface `_schema.py`'s timeline functions consume: the
registered model names, the `_fieldinfo_` rows, and the repository's
prefix and pkey. -/
structure TimelineDB where
  models : List String
  fieldinfo : List FieldInfo
  pfx : String
  pkey : String
deriving DecidableEq, Repr

/-- `db.select('_fieldinfo_', where={'datatype_': 'Datetime'})`. -/
def dtFields (db : TimelineDB) : List FieldInfo :=
  db.fieldinfo.filter (fun f => f.datatype_ == some "Datetime")

/-- `db.select('_fieldinfo_', where={'datatype_': 'Date'})`. -/
def dFields (db : TimelineDB) : List FieldInfo :=
  db.fieldinfo.filter (fun f => f.datatype_ == some "Date")

/-- Python truthiness of the `preview_` column (`bool(preview_) is True`). -/
def previewSet (c : FieldInfo) : Bool :=
  match c.preview_ with
  | some n => n != 0
  | none => false

/-- The `(fieldname_, columnname_)` pairs `_modeltimeline_subquery` keeps
for the preview: the model's `_fieldinfo_` rows minus binary columns and
columns with no datatype (`datatype_ not in ['Bytes', None, '']`) minus
rows whose preview flag is not set. -/
def previewColnames (db : TimelineDB) (fd : FieldInfo) : List (String × String) :=
  let columns := db.fieldinfo.filter (fun c => c.modeltable_ == fd.modeltable_)
  let columns := columns.filter
    (fun c => !(c.datatype_ == some "Bytes" || c.datatype_ == none || c.datatype_ == some ""))
  let columns := columns.filter previewSet
  columns.map (fun c => (c.fieldname_, c.columnname_))

/-- The `preview` expression of `_modeltimeline_subquery`: `''` when no
preview columns remain, otherwise the `|`-joined coalesced casts. -/
def previewExpr (db : TimelineDB) (fd : FieldInfo) : String :=
  let colnames := previewColnames db fd
  if colnames.isEmpty then "''"
  else String.intercalate " || '|' || "
    (colnames.map (fun c => "'" ++ c.1 ++ ":' || COALESCE(CAST(" ++ c.2 ++ " AS TEXT),'')\n"))

/-- `_modeltimeline_subquery` of `_schema.py`: the sub-select for one
Datetime/Date field, with the format slots filled as in the source
(column name, column name, model table, prefix, pkey, preview, model
table, column name). -/
def _modeltimeline_subquery (db : TimelineDB) (fd : FieldInfo) : String :=
  "SELECT " ++ fd.columnname_ ++ " AS timestamp_,\n '" ++ fd.columnname_ ++
  "' AS timestampfield_,\n '" ++ fd.modeltable_ ++ "' AS table_\n, " ++
  db.pfx ++ db.pkey ++ "\n, " ++ previewExpr db fd ++ " AS preview_\n FROM " ++
  fd.modeltable_ ++ " \nWHERE " ++ fd.columnname_ ++ " is not NULL"

/-- The error message raised for an invalid timeline exclusion list. -/
def invalidExclusionMsg : String := "timeline exclusion list contains invalid modelname"

/-- `timeline_fields` of `_schema.py`: the Datetime rows then the Date
rows of `_fieldinfo_`, with excluded models filtered out; a `ValueError`
when the exclusion list names a model that is not registered. -/
def timeline_fields (db : TimelineDB) (excluded : Option (List String)) :
    Except DadbError (List FieldInfo) :=
  let dtfields := dtFields db
  let dfields := dFields db
  match excluded with
  | none => Except.ok (dtfields ++ dfields)
  | some l =>
    if l.all (fun m => db.models.contains m) then
      Except.ok ((dtfields.filter (fun f => !l.contains f.modelname_)) ++
                 (dfields.filter (fun f => !l.contains f.modelname_)))
    else Except.error (DadbError.valueError invalidExclusionMsg)

/-- The statements `create_timeline_view` executes on the cursor. -/
inductive Stmt where
  | dropTimelineView
  | createView (q : String)
  | commitTx
deriving DecidableEq, Repr

/-- The connection state `create_timeline_view` acts on: the current
`xTimeline_` view (as pending, uncommitted schema state), whether the
single backend transaction is active, and the trace of executed
statements. -/
structure CTVState where
  view : Option String
  inTx : Bool
  trace : List Stmt
deriving DecidableEq, Repr

/-- The tail of `create_timeline_view` after the exclusion filtering: build
one sub-select per field, return without a view when the union is empty,
otherwise create the view; commit iff this call began the transaction. -/
def ctvBuild (db : TimelineDB) (started : Bool) (dtfields dfields : List FieldInfo)
    (st : CTVState) : Except DadbError Unit × CTVState :=
  let allfields := dtfields.map (_modeltimeline_subquery db) ++
                   dfields.map (_modeltimeline_subquery db)
  if allfields.isEmpty then
    if started then
      (Except.ok (), { st with inTx := false, trace := st.trace ++ [Stmt.commitTx] })
    else (Except.ok (), st)
  else
    let megaquery := "CREATE VIEW " ++ db.pfx ++ "Timeline_ AS " ++
      String.intercalate "\n\nUNION\n\n" allfields ++ " ORDER BY timestamp_"
    let st := { st with view := some megaquery, trace := st.trace ++ [Stmt.createView megaquery] }
    if started then
      (Except.ok (), { st with inTx := false, trace := st.trace ++ [Stmt.commitTx] })
    else (Except.ok (), st)

/-- `create_timeline_view` of `_schema.py`: begin a transaction (noting
whether this call started it), drop any existing `xTimeline_` view, select
the Datetime and Date rows of `_fieldinfo_`, validate and apply the
exclusion list (raising `ValueError` on an unregistered name, with no
rollback on that path, exactly as in the source), then build the union
view and commit iff the transaction was started here. -/
def create_timeline_view (db : TimelineDB) (excluded : Option (List String))
    (st : CTVState) : Except DadbError Unit × CTVState :=
  let started := !st.inTx
  let st1 : CTVState :=
    { view := none, inTx := true, trace := st.trace ++ [Stmt.dropTimelineView] }
  let dtfields := dtFields db
  let dfields := dFields db
  match excluded with
  | none => ctvBuild db started dtfields dfields st1
  | some l =>
    if l.all (fun m => db.models.contains m) then
      ctvBuild db started
        (dtfields.filter (fun f => !l.contains f.modelname_))
        (dfields.filter (fun f => !l.contains f.modelname_)) st1
    else (Except.error (DadbError.valueError invalidExclusionMsg), st1)

/-- The Datetime-or-Date fields that survive an exclusion list `l`
(Datetime rows first, then Date rows, as the source computes them). -/
def tlFields (db : TimelineDB) (l : List String) : List FieldInfo :=
  (dtFields db).filter (fun f => !l.contains f.modelname_) ++
  (dFields db).filter (fun f => !l.contains f.modelname_)

/-! ## Auxiliary predicates and claim-side definitions -/

/-- The blockmap rows `rs` resolve, against `blocks`, to the chunk list
`cs` laid out contiguously from byte offset `off`. -/
inductive ResolvedIn (blocks : List Block) :
    List BlockmapRow → List (List Nat) → Nat → Prop where
  | nil (off : Nat) : ResolvedIn blocks [] [] off
  | cons {r : BlockmapRow} {c : List Nat} {rs : List BlockmapRow}
      {cs : List (List Nat)} {off : Nat} {b : Block} (hoff : r.offset = off)
      (hfind : findBlock blocks r.blkid = some b) (hdata : b.data = c)
      (htail : ResolvedIn blocks rs cs (off + c.length)) :
      ResolvedIn blocks (r :: rs) (c :: cs) off

/-- `p` occurs verbatim inside `q`. -/
def substrOf (p q : String) : Prop := p.data <:+: q.data

instance (p q : String) : Decidable (substrOf p q) :=
  List.decidableInfix p.data q.data

/-- What claim C6 (following the spec's words) states the preview columns
are: exactly those columns of the model whose datatype is not `Bytes` and
whose preview flag is set. -/
def claimPreviewColnames (db : TimelineDB) (fd : FieldInfo) : List (String × String) :=
  (((db.fieldinfo.filter (fun c => c.modeltable_ == fd.modeltable_)).filter
      (fun c => !(c.datatype_ == some "Bytes"))).filter previewSet).map
    (fun c => (c.fieldname_, c.columnname_))

/-- The preview expression claim C6 describes, built over
`claimPreviewColnames`. -/
def claimPreviewExpr (db : TimelineDB) (fd : FieldInfo) : String :=
  let colnames := claimPreviewColnames db fd
  if colnames.isEmpty then "''"
  else String.intercalate " || '|' || "
    (colnames.map (fun c => "'" ++ c.1 ++ ":' || COALESCE(CAST(" ++ c.2 ++ " AS TEXT),'')\n"))

/-- Claim C6 as amended: the preview columns are exactly those columns of
the model whose datatype is not `Bytes`, not NULL, and not empty, and
whose preview flag is set. -/
def amendedPreviewColnames (db : TimelineDB) (fd : FieldInfo) : List (String × String) :=
  (db.fieldinfo.filter (fun c => c.modeltable_ == fd.modeltable_ &&
      !(c.datatype_ == some "Bytes") && !(c.datatype_ == none) &&
      !(c.datatype_ == some "") && previewSet c)).map
    (fun c => (c.fieldname_, c.columnname_))

/-! ## Concrete claim scenarios -/

/-- The 7-byte payload of the C2 counterexample. -/
def c2Bytes : List Nat := [0, 1, 2, 3, 4, 5, 6]

/-- A well-formed store that already holds `c2Bytes` as a stored data
object with id 1 before any transaction begins. -/
def c2Store : Store :=
  ⟨[⟨1, c2Bytes, c2Bytes, c2Bytes, 7, true⟩],
   [⟨1, c2Bytes, 7, c2Bytes⟩],
   [⟨1, 1, 0⟩], 2, 2⟩

/-- The concrete repository for the C5 counterexample: one registered
model with a single Datetime field named `ts` whose backing column is
`xts`. -/
def c5DB : TimelineDB :=
  ⟨["m"], [⟨"m", "xm", "ts", "xts", some "Datetime", none⟩], "x", "id"⟩

/-- The concrete repository for the C6 counterexample: a model with a
Datetime field `ts` and a second field `other` whose `datatype_` is NULL
(as for a submodel reference) but whose preview flag is set. -/
def c6DB : TimelineDB :=
  ⟨["m"],
   [⟨"m", "xm", "ts", "xts", some "Datetime", none⟩,
    ⟨"m", "xm", "other", "xother", none, some 1⟩],
   "x", "id"⟩

/-- The Datetime field of `c6DB` whose sub-select is examined. -/
def c6FD : FieldInfo := ⟨"m", "xm", "ts", "xts", some "Datetime", none⟩

/-- The concrete repository for claim C8: no registered models, and a
`create_timeline_view` call whose exclusion list names an unregistered
model. -/
def c8DB : TimelineDB := ⟨[], [], "x", "id"⟩

/-- The connection state for the C8 scenario (a previously committed
timeline view exists and no transaction is active). -/
def c8St : CTVState := ⟨some "CREATE VIEW xTimeline_ AS previous", false, []⟩

/-! ## Round-trip lemmas for the content store -/

lemma find?_append_some {α : Type} (p : α → Bool) (l l' : List α) (b : α)
    (h : l.find? p = some b) : (l ++ l').find? p = some b := by
  induction l with
  | nil => simp [List.find?] at h
  | cons a as ih =>
    rw [List.cons_append]
    by_cases hp : p a = true
    · rw [List.find?_cons_of_pos _ hp] at h ⊢; exact h
    · rw [List.find?_cons_of_neg _ hp] at h ⊢; exact ih h

lemma find?_append_none {α : Type} (p : α → Bool) (l l' : List α)
    (h : l.find? p = none) : (l ++ l').find? p = l'.find? p := by
  induction l with
  | nil => simp
  | cons a as ih =>
    rw [List.cons_append]
    by_cases hp : p a = true
    · rw [List.find?_cons_of_pos _ hp] at h; exact absurd h (by simp)
    · rw [List.find?_cons_of_neg _ hp] at h ⊢; exact ih h

lemma findKey_of_mem {α : Type} (key : α → Nat) (l : List α) (r : α)
    (hmem : r ∈ l) (hpw : l.Pairwise (fun a b => key a ≠ key b)) :
    l.find? (fun x => key x == key r) = some r := by
  induction l with
  | nil => cases hmem
  | cons a as ih =>
    rcases List.mem_cons.mp hmem with rfl | hmem'
    · rw [List.find?_cons_of_pos _ (by simp)]
    · have hne : key a ≠ key r := (List.pairwise_cons.mp hpw).1 r hmem'
      rw [List.find?_cons_of_neg _ (by simp [hne])]
      exact ih hmem' (List.pairwise_cons.mp hpw).2

lemma chunksAux_flatten : ∀ (fuel : Nat) (s : List Nat), s.length ≤ fuel →
    (chunksAux fuel s).flatten = s := by
  intro fuel
  induction fuel with
  | zero =>
    intro s h
    have hs : s = [] := List.length_eq_zero.mp (Nat.le_zero.mp h)
    subst hs
    rfl
  | succ n ih =>
    intro s h
    cases s with
    | nil => rfl
    | cons a as =>
      have hB : 1 ≤ BLOCKSIZE := by norm_num [BLOCKSIZE]
      rw [chunksAux, List.flatten_cons,
        ih ((a :: as).drop BLOCKSIZE) (by rw [List.length_drop]; omega)]
      exact List.take_append_drop _ _

/-- Splitting a payload into `BLOCKSIZE`-slices and concatenating them
reproduces the payload. -/
lemma chunks_flatten (s : List Nat) : (chunks s).flatten = s :=
  chunksAux_flatten s.length s le_rfl

lemma insertRow_of_le (r : BlockmapRow) (xs : List BlockmapRow)
    (h : ∀ y ∈ xs, r.offset ≤ y.offset) : insertRow r xs = r :: xs := by
  cases xs with
  | nil => rfl
  | cons x xs => rw [insertRow, if_pos (h x (List.mem_cons_self x xs))]

lemma sortRows_eq_self (l : List BlockmapRow)
    (h : l.Pairwise (fun a b => a.offset ≤ b.offset)) : sortRows l = l := by
  induction l with
  | nil => rfl
  | cons x xs ih =>
    rw [sortRows, ih (List.pairwise_cons.mp h).2]
    exact insertRow_of_le x xs (List.pairwise_cons.mp h).1

lemma ResolvedIn.mono {blocks : List Block} {rs : List BlockmapRow}
    {cs : List (List Nat)} {off : Nat} (ext : List Block)
    (h : ResolvedIn blocks rs cs off) : ResolvedIn (blocks ++ ext) rs cs off := by
  induction h with
  | nil off => exact .nil off
  | cons hoff hfind hdata htail ih =>
    exact .cons hoff (find?_append_some _ blocks ext _ hfind) hdata ih

lemma ResolvedIn.offset_le {blocks : List Block} {rs : List BlockmapRow}
    {cs : List (List Nat)} {off : Nat} (h : ResolvedIn blocks rs cs off) :
    ∀ r ∈ rs, off ≤ r.offset := by
  induction h with
  | nil off => intro r hr; cases hr
  | cons hoff hfind hdata htail ih =>
    intro x hx
    rcases List.mem_cons.mp hx with rfl | hx'
    · omega
    · have := ih x hx'
      omega

lemma ResolvedIn.pairwise_offset {blocks : List Block} {rs : List BlockmapRow}
    {cs : List (List Nat)} {off : Nat} (h : ResolvedIn blocks rs cs off) :
    rs.Pairwise (fun a b => a.offset ≤ b.offset) := by
  induction h with
  | nil off => exact List.Pairwise.nil
  | cons hoff hfind hdata htail ih =>
    refine List.pairwise_cons.mpr ⟨?_, ih⟩
    intro y hy
    have h1 := htail.offset_le y hy
    omega

lemma ResolvedIn.mapOpt_eq {blocks : List Block} {rs : List BlockmapRow}
    {cs : List (List Nat)} {off : Nat} (h : ResolvedIn blocks rs cs off) :
    mapOpt (fun r => Option.map (fun b => b.data) (findBlock blocks r.blkid)) rs = some cs := by
  induction h with
  | nil off => rfl
  | cons hoff hfind hdata htail ih =>
    simp [mapOpt, hfind, hdata, ih]

/-- The effect of `storeChunks`: it only appends to `blocks` and
`blockmap`, keeps `datas` and the data counter, preserves the block
invariants, and the appended blockmap rows resolve (against the final
blocks) to the stored chunks laid out from `off`. -/
lemma storeChunks_spec : ∀ (cs : List (List Nat)) (st : Store) (did off : Nat),
    BlocksOK st →
    ∃ R ext,
      (storeChunks st did off cs).blocks = st.blocks ++ ext ∧
      (storeChunks st did off cs).blockmap = st.blockmap ++ R ∧
      (storeChunks st did off cs).datas = st.datas ∧
      (storeChunks st did off cs).nextDataId = st.nextDataId ∧
      BlocksOK (storeChunks st did off cs) ∧
      (∀ r ∈ R, r.dataid = did) ∧
      ResolvedIn (storeChunks st did off cs).blocks R cs off := by
  intro cs
  induction cs with
  | nil =>
    intro st did off hok
    exact ⟨[], [], by simp [storeChunks], by simp [storeChunks], rfl, rfl, hok,
      fun r hr => absurd hr (List.not_mem_nil r), .nil off⟩
  | cons c cs ih =>
    intro st did off hok
    obtain ⟨hlt, hsha, hpw⟩ := hok
    cases hfind : st.blocks.find? (fun b => b.sha1 == sha1 c && b.size == c.length) with
    | some b =>
      -- reuse the existing block
      have hmem := List.mem_of_find?_eq_some hfind
      have hpred := List.find?_some hfind
      have hsha1 : b.sha1 = sha1 c := by
        have := ((Bool.and_eq_true _ _).mp hpred).1
        exact eq_of_beq this
      have hdata : b.data = c := by
        have h1 : b.sha1 = sha1 b.data := (hsha b hmem).1
        rw [hsha1] at h1
        exact h1.symm
      have hfindid : findBlock st.blocks b.id = some b := by
        show st.blocks.find? (fun x => x.id == b.id) = some b
        exact findKey_of_mem (fun x : Block => x.id) st.blocks b hmem hpw
      set st2 : Store := { st with blockmap := st.blockmap ++ [⟨did, b.id, off⟩] } with hst2
      have hok2 : BlocksOK st2 := ⟨hlt, hsha, hpw⟩
      obtain ⟨R, ext, h1, h2, h3, h4, h5, h6, h7⟩ := ih st2 did (off + c.length) hok2
      have hrun : storeChunks st did off (c :: cs) = storeChunks st2 did (off + c.length) cs := by
        simp only [storeChunks, hfind]
      refine ⟨⟨did, b.id, off⟩ :: R, ext, ?_, ?_, ?_, ?_, ?_, ?_, ?_⟩
      · rw [hrun, h1]
      · rw [hrun, h2, hst2]
        simp [List.append_assoc]
      · rw [hrun, h3]
      · rw [hrun, h4]
      · rw [hrun]; exact h5
      · intro r hr
        rcases List.mem_cons.mp hr with rfl | hr'
        · rfl
        · exact h6 r hr'
      · rw [hrun]
        refine ResolvedIn.cons rfl ?_ hdata h7
        rw [h1]
        exact find?_append_some _ st.blocks ext b hfindid
    | none =>
      -- insert a fresh block
      set nb : Block := ⟨st.nextBlkId, sha1 c, c.length, c⟩ with hnb
      set st2 : Store := { st with
          blocks := st.blocks ++ [nb],
          nextBlkId := st.nextBlkId + 1,
          blockmap := st.blockmap ++ [⟨did, st.nextBlkId, off⟩] } with hst2
      have hok2 : BlocksOK st2 := by
        refine ⟨?_, ?_, ?_⟩
        · intro x hx
          rcases List.mem_append.mp hx with hx' | hx'
          · exact Nat.lt_succ_of_lt (hlt x hx')
          · rcases List.mem_singleton.mp hx' with rfl
            exact Nat.lt_succ_self _
        · intro x hx
          rcases List.mem_append.mp hx with hx' | hx'
          · exact hsha x hx'
          · rcases List.mem_singleton.mp hx' with rfl
            exact ⟨rfl, rfl⟩
        · refine List.pairwise_append.mpr ⟨hpw, List.pairwise_singleton _ _, ?_⟩
          intro x hx y hy
          rcases List.mem_singleton.mp hy with rfl
          exact Nat.ne_of_lt (hlt x hx)
      have hfindnb : findBlock st2.blocks nb.id = some nb := by
        show (st.blocks ++ [nb]).find? (fun x => x.id == nb.id) = some nb
        rw [find?_append_none]
        · simp [List.find?]
        · rw [List.find?_eq_none]
          intro x hx
          have := hlt x hx
          simp only [beq_iff_eq]
          omega
      obtain ⟨R, ext, h1, h2, h3, h4, h5, h6, h7⟩ := ih st2 did (off + c.length) hok2
      have hrun : storeChunks st did off (c :: cs) = storeChunks st2 did (off + c.length) cs := by
        simp only [storeChunks, hfind]
      refine ⟨⟨did, st.nextBlkId, off⟩ :: R, [nb] ++ ext, ?_, ?_, ?_, ?_, ?_, ?_, ?_⟩
      · rw [hrun, h1, hst2]
        simp [List.append_assoc]
      · rw [hrun, h2, hst2]
        simp [List.append_assoc]
      · rw [hrun, h3]
      · rw [hrun, h4]
      · rw [hrun]; exact h5
      · intro r hr
        rcases List.mem_cons.mp hr with rfl | hr'
        · rfl
        · exact h6 r hr'
      · rw [hrun]
        have hfind2 : findBlock (storeChunks st2 did (off + c.length) cs).blocks
            st.nextBlkId = some nb := by
          rw [h1]
          exact find?_append_some _ st2.blocks ext nb hfindnb
        exact ResolvedIn.cons rfl hfind2 rfl h7

/-- Inserting a payload whose `sha256` is not yet stored takes the fresh
path: the returned id is the data counter, and reading the object back
through `get_data` yields the payload, its digest, and its length. -/
lemma insert_fresh_read (st : Store) (s : List Nat) (hwf : WF st)
    (hfresh : st.datas.find? (fun r => r.sha256 == sha256 s && r.stored) = none) :
    (insert_data st s).1 = st.nextDataId ∧
    get_data (insert_data st s).2 (insert_data st s).1 = Except.ok ⟨sha256 s, s.length, s⟩ := by
  obtain ⟨hids, hpwd, hbok, hbm, hstored⟩ := hwf
  obtain ⟨R, ext, h1, h2, h3, h4, h5, h6, h7⟩ :=
    storeChunks_spec (chunks s) { st with nextDataId := st.nextDataId + 1 } st.nextDataId 0 hbok
  have hpair : insert_data st s =
      (st.nextDataId,
       { storeChunks { st with nextDataId := st.nextDataId + 1 } st.nextDataId 0 (chunks s) with
         datas := (storeChunks { st with nextDataId := st.nextDataId + 1 } st.nextDataId 0
             (chunks s)).datas ++
           [⟨st.nextDataId, md5 s, sha1 s, sha256 s, s.length, true⟩] }) := by
    simp only [insert_data, hfresh]
  rw [hpair]
  refine ⟨rfl, ?_⟩
  set S : Store :=
    storeChunks { st with nextDataId := st.nextDataId + 1 } st.nextDataId 0 (chunks s) with hS
  have hdatas : S.datas = st.datas := h3
  have hblockmap : S.blockmap = st.blockmap ++ R := h2
  have hnone : st.datas.find? (fun r => r.id == st.nextDataId) = none := by
    rw [List.find?_eq_none]
    intro x hx
    have := hids x hx
    simp only [beq_iff_eq]
    omega
  have hfindrow :
      (S.datas ++ [(⟨st.nextDataId, md5 s, sha1 s, sha256 s, s.length, true⟩ : DataRow)]).find?
        (fun r => r.id == st.nextDataId) =
      some ⟨st.nextDataId, md5 s, sha1 s, sha256 s, s.length, true⟩ := by
    rw [hdatas, find?_append_none _ _ _ hnone]
    simp [List.find?]
  have hfilter : (st.blockmap ++ R).filter (fun m => m.dataid == st.nextDataId) = R := by
    rw [List.filter_append]
    rw [List.filter_eq_nil_iff.mpr ?ha, List.filter_eq_self.mpr ?hb, List.nil_append]
    case ha =>
      intro m hm
      have := hbm m hm
      simp only [beq_iff_eq]
      omega
    case hb =>
      intro r hr
      simp [h6 r hr]
  have hread : readData
      { S with datas := S.datas ++ [⟨st.nextDataId, md5 s, sha1 s, sha256 s, s.length, true⟩] }
      st.nextDataId = some s := by
    simp only [readData]
    rw [hblockmap, hfilter, sortRows_eq_self R h7.pairwise_offset, h7.mapOpt_eq]
    simp [chunks_flatten]
  simp only [get_data, hfindrow, hread]
  rfl

/-- C1 core: under the store invariants, `get_data (insert_data s)` reads
back exactly `s`, with the stored `sha256` and size of `s` — whether the
insert stored fresh blocks or deduplicated against an existing object. -/
lemma insert_get_ok (st : Store) (s : List Nat) (hwf : WF st) :
    get_data (insert_data st s).2 (insert_data st s).1 = Except.ok ⟨sha256 s, s.length, s⟩ := by
  cases hdup : st.datas.find? (fun r => r.sha256 == sha256 s && r.stored) with
  | none => exact (insert_fresh_read st s hwf hdup).2
  | some r =>
    obtain ⟨hids, hpwd, hbok, hbm, hstored⟩ := hwf
    have hmem := List.mem_of_find?_eq_some hdup
    have hpred := List.find?_some hdup
    have h256 : r.sha256 = sha256 s := eq_of_beq ((Bool.and_eq_true _ _).mp hpred).1
    have hstr : r.stored = true := ((Bool.and_eq_true _ _).mp hpred).2
    have hfindid : st.datas.find? (fun x => x.id == r.id) = some r :=
      findKey_of_mem (fun x : DataRow => x.id) st.datas r hmem hpwd
    have hok := hstored r hmem hstr
    unfold storedRowOK at hok
    simp only [insert_data, hdup]
    cases hrd : readData st r.id with
    | none => rw [hrd] at hok; exact absurd hok (by simp)
    | some bs =>
      rw [hrd] at hok
      have h1 : r.sha256 = sha256 bs := eq_of_beq ((Bool.and_eq_true _ _).mp hok).1
      have h2 : r.size = bs.length := by
        have := ((Bool.and_eq_true _ _).mp hok).2
        simpa using this
      have hbs : bs = s := by
        have e1 : r.sha256 = bs := h1
        have e2 : r.sha256 = s := h256
        rw [e1] at e2
        exact e2
      simp only [get_data, hfindid, hstr, if_true, hrd]
      rw [hbs, h256, h2, hbs]

/-- `get_data` on an id at or above the data counter fails with
`NoSuchDataObjectError`. -/
lemma get_data_fresh_id_error (store : Store)
    (hids : ∀ r ∈ store.datas, r.id < store.nextDataId) :
    get_data store store.nextDataId = Except.error DadbError.noSuchDataObject := by
  have hnone : store.datas.find? (fun r => r.id == store.nextDataId) = none := by
    rw [List.find?_eq_none]
    intro x hx
    have := hids x hx
    simp only [beq_iff_eq]
    omega
  simp [get_data, hnone]

/-! ## Claim theorems: the content store (C1, C2) -/

/-- C1: for every inserted byte stream `s` over a well-formed store,
reading back the data object returned by `insert_data` reproduces `s`
exactly — the handle's `read` equals `s`, its stored `sha256` equals
`sha256 s`, and its `length` equals the byte length of `s`. -/
theorem inserted_data_reads_back (st : Store) (s : List Nat) (hwf : WF st) :
    get_data (insert_data st s).2 (insert_data st s).1 =
      Except.ok ⟨sha256 s, s.length, s⟩ :=
  insert_get_ok st s hwf

/-- Witness for C1: the 7-byte test vector inserted into a fresh store. -/
theorem inserted_data_reads_back_witness :
    WF emptyStore ∧
    get_data (insert_data emptyStore [0, 1, 2, 3, 4, 5, 6]).2
        (insert_data emptyStore [0, 1, 2, 3, 4, 5, 6]).1 =
      Except.ok ⟨sha256 [0, 1, 2, 3, 4, 5, 6], ([0, 1, 2, 3, 4, 5, 6] : List Nat).length,
        [0, 1, 2, 3, 4, 5, 6]⟩ :=
  ⟨by decide, inserted_data_reads_back emptyStore [0, 1, 2, 3, 4, 5, 6] (by decide)⟩

/-- C2 as amended: for a data id obtained from `insert_data` inside a
transaction, *provided no data object with the same `sha256` was already
stored before the transaction began*, rolling the transaction back makes a
subsequent `get_data` fail with `NoSuchDataObjectError`, while committing
it via `end_transaction` makes `get_data` read the inserted bytes back. -/
theorem rolled_back_data_unavailable_committed_readable
    (st : DBState) (s : List Nat) (hsnap : st.snapshot = none) (hwf : WF st.store)
    (hfresh : st.store.datas.find? (fun r => r.sha256 == sha256 s && r.stored) = none) :
    db_get_data (rollback_transaction (db_insert_data (begin_transaction st).2 s).2).2
        (db_insert_data (begin_transaction st).2 s).1 =
      Except.error DadbError.noSuchDataObject ∧
    db_get_data (end_transaction (db_insert_data (begin_transaction st).2 s).2)
        (db_insert_data (begin_transaction st).2 s).1 =
      Except.ok ⟨sha256 s, s.length, s⟩ := by
  have hb : (begin_transaction st).2 = { st with snapshot := some st.store } := by
    simp [begin_transaction, hsnap]
  obtain ⟨hid, hfrd⟩ := insert_fresh_read st.store s hwf hfresh
  obtain ⟨hids, _, _, _, _⟩ := hwf
  constructor
  · rw [hb]
    simp only [db_insert_data, rollback_transaction, db_get_data]
    rw [hid]
    exact get_data_fresh_id_error st.store hids
  · rw [hb]
    simp only [db_insert_data, end_transaction, db_get_data]
    exact hfrd

/-- Witness for (amended) C2: the 7-byte test vector on a fresh handle. -/
theorem rolled_back_data_unavailable_committed_readable_witness :
    ((⟨emptyStore, none⟩ : DBState).snapshot = none ∧ WF (⟨emptyStore, none⟩ : DBState).store ∧
     (⟨emptyStore, none⟩ : DBState).store.datas.find?
       (fun r => r.sha256 == sha256 [0, 1, 2, 3, 4, 5, 6] && r.stored) = none) ∧
    (db_get_data
        (rollback_transaction
          (db_insert_data (begin_transaction ⟨emptyStore, none⟩).2 [0, 1, 2, 3, 4, 5, 6]).2).2
        (db_insert_data (begin_transaction ⟨emptyStore, none⟩).2 [0, 1, 2, 3, 4, 5, 6]).1 =
      Except.error DadbError.noSuchDataObject ∧
     db_get_data
        (end_transaction
          (db_insert_data (begin_transaction ⟨emptyStore, none⟩).2 [0, 1, 2, 3, 4, 5, 6]).2)
        (db_insert_data (begin_transaction ⟨emptyStore, none⟩).2 [0, 1, 2, 3, 4, 5, 6]).1 =
      Except.ok ⟨sha256 [0, 1, 2, 3, 4, 5, 6], ([0, 1, 2, 3, 4, 5, 6] : List Nat).length,
        [0, 1, 2, 3, 4, 5, 6]⟩) :=
  ⟨⟨rfl, by decide, rfl⟩,
   rolled_back_data_unavailable_committed_readable ⟨emptyStore, none⟩ [0, 1, 2, 3, 4, 5, 6]
     rfl (by decide) rfl⟩

/-- C2 counterexample: when the inserted content is already stored,
`insert_data` inside the transaction returns the *existing* id (spec's
dedup rule), so after the rollback `get_data` on the id obtained from
`insert_data` still succeeds instead of failing with
`NoSuchDataObjectError`. -/
theorem rolled_back_data_unavailable_counterexample :
    (begin_transaction ⟨c2Store, none⟩).1 = true ∧
    (db_insert_data (begin_transaction ⟨c2Store, none⟩).2 c2Bytes).1 = 1 ∧
    (rollback_transaction (db_insert_data (begin_transaction ⟨c2Store, none⟩).2 c2Bytes).2).1 =
      true ∧
    db_get_data
        (rollback_transaction (db_insert_data (begin_transaction ⟨c2Store, none⟩).2 c2Bytes).2).2
        (db_insert_data (begin_transaction ⟨c2Store, none⟩).2 c2Bytes).1 =
      Except.ok ⟨c2Bytes, 7, c2Bytes⟩ ∧
    db_get_data
        (rollback_transaction (db_insert_data (begin_transaction ⟨c2Store, none⟩).2 c2Bytes).2).2
        (db_insert_data (begin_transaction ⟨c2Store, none⟩).2 c2Bytes).1 ≠
      Except.error DadbError.noSuchDataObject := by
  refine ⟨rfl, rfl, rfl, rfl, by decide⟩

/-! ## Substrings of generated SQL -/

lemma substrOf_refl (p : String) : substrOf p p := ⟨[], [], by simp⟩

lemma substrOf_left (p q r : String) (h : substrOf p q) : substrOf p (r ++ q) := by
  obtain ⟨s, t, hst⟩ := h
  exact ⟨r.data ++ s, t, by rw [String.data_append, ← hst]; simp [List.append_assoc]⟩

lemma substrOf_right (p q r : String) (h : substrOf p q) : substrOf p (q ++ r) := by
  obtain ⟨s, t, hst⟩ := h
  exact ⟨s, t ++ r.data, by rw [String.data_append, ← hst]; simp [List.append_assoc]⟩

/-- `_modeltimeline_subquery` regrouped so that each item the sub-select
exposes is one syntactic unit. -/
lemma subquery_parts (db : TimelineDB) (fd : FieldInfo) :
    _modeltimeline_subquery db fd =
      "SELECT " ++ (fd.columnname_ ++ " AS timestamp_") ++ ",\n " ++
      ("'" ++ fd.columnname_ ++ "' AS timestampfield_") ++ ",\n " ++
      ("'" ++ fd.modeltable_ ++ "' AS table_") ++ "\n, " ++
      (db.pfx ++ db.pkey) ++ "\n, " ++
      (previewExpr db fd ++ " AS preview_") ++ "\n " ++
      ("FROM " ++ fd.modeltable_) ++ " \n" ++
      ("WHERE " ++ fd.columnname_ ++ " is not NULL") := by
  have e1 : (" AS timestamp_,\n '" : String) = " AS timestamp_" ++ ",\n " ++ "'" := rfl
  have e2 : ("' AS timestampfield_,\n '" : String) =
    "' AS timestampfield_" ++ ",\n " ++ "'" := rfl
  have e3 : ("' AS table_\n, " : String) = "' AS table_" ++ "\n, " := rfl
  have e4 : (" AS preview_\n FROM " : String) = " AS preview_" ++ "\n " ++ "FROM " := rfl
  have e5 : (" \nWHERE " : String) = " \n" ++ "WHERE " := rfl
  simp only [_modeltimeline_subquery, e1, e2, e3, e4, e5, String.append_assoc]

/-! ## Lemmas about the timeline builder -/

/-- `ctvBuild` on a nonempty field list creates the union view and
succeeds. -/
lemma ctvBuild_view (db : TimelineDB) (started : Bool) (dt dl : List FieldInfo)
    (st : CTVState) (hne : dt ++ dl ≠ []) :
    (ctvBuild db started dt dl st).1 = Except.ok () ∧
    (ctvBuild db started dt dl st).2.view =
      some ("CREATE VIEW " ++ db.pfx ++ "Timeline_ AS " ++
        String.intercalate "\n\nUNION\n\n" ((dt ++ dl).map (_modeltimeline_subquery db)) ++
        " ORDER BY timestamp_") := by
  have hmap : dt.map (_modeltimeline_subquery db) ++ dl.map (_modeltimeline_subquery db) =
      (dt ++ dl).map (_modeltimeline_subquery db) := (List.map_append _ dt dl).symm
  have hnotempty :
      ((dt ++ dl).map (_modeltimeline_subquery db)).isEmpty = false := by
    cases h : dt ++ dl with
    | nil => exact absurd h hne
    | cons a as => simp [h]
  unfold ctvBuild
  rw [hmap]
  simp only [hnotempty, Bool.false_eq_true, if_false]
  cases started <;> simp

lemma ctvBuild_nil (db : TimelineDB) (started : Bool) (st : CTVState) :
    ctvBuild db started [] [] st =
      (Except.ok (),
       if started then { st with inTx := false, trace := st.trace ++ [Stmt.commitTx] } else st) := by
  cases started <;> simp [ctvBuild]

lemma all_contains_eq_false (l models : List String) (m : String)
    (hmem : m ∈ l) (hnot : m ∉ models) :
    l.all (fun x => models.contains x) = false := by
  rw [Bool.eq_false_iff]
  intro hall
  rw [List.all_eq_true] at hall
  exact hnot (by simpa using hall m hmem)

/-! ## Claim theorems: timeline view shape (C5, C6) -/

set_option maxRecDepth 100000 in
/-- C5 counterexample: the claim says each sub-select exposes the *field*
(`ts`) as the string literal `timestampfield_`, but the view
`create_timeline_view` builds for `c5DB` contains `'xts' AS
timestampfield_` — the field's *column name* — and the claimed literal
`'ts' AS timestampfield_` occurs nowhere in it. -/
theorem timestampfield_is_field_name_counterexample :
    (create_timeline_view c5DB none ⟨none, false, []⟩).2.view.isSome = true ∧
    ¬ substrOf ("'" ++ "ts" ++ "' AS timestampfield_")
        ((create_timeline_view c5DB none ⟨none, false, []⟩).2.view.getD "") ∧
    substrOf ("'" ++ "xts" ++ "' AS timestampfield_")
        ((create_timeline_view c5DB none ⟨none, false, []⟩).2.view.getD "") := by
  refine ⟨rfl, by decide, by decide⟩

/-- C5 as amended: the timeline view is the union of exactly one
sub-select per Datetime or Date field of a registered model not in the
exclusion list, and each sub-select exposes the field's column as
`timestamp_`, the field's *column name* (not the field name) as the string
literal `timestampfield_`, the model's table as `table_`, the primary key,
and `preview_`, restricted to rows where the field's column is not NULL. -/
theorem timeline_view_unions_one_subselect_per_temporal_field
    (db : TimelineDB) (l : List String) (st : CTVState)
    (hval : ∀ m ∈ l, m ∈ db.models)
    (hne : tlFields db l ≠ []) :
    (create_timeline_view db (some l) st).1 = Except.ok () ∧
    (create_timeline_view db (some l) st).2.view =
      some ("CREATE VIEW " ++ db.pfx ++ "Timeline_ AS " ++
        String.intercalate "\n\nUNION\n\n" ((tlFields db l).map (_modeltimeline_subquery db)) ++
        " ORDER BY timestamp_") ∧
    ∀ fd ∈ tlFields db l,
      substrOf (fd.columnname_ ++ " AS timestamp_") (_modeltimeline_subquery db fd) ∧
      substrOf ("'" ++ fd.columnname_ ++ "' AS timestampfield_")
        (_modeltimeline_subquery db fd) ∧
      substrOf ("'" ++ fd.modeltable_ ++ "' AS table_") (_modeltimeline_subquery db fd) ∧
      substrOf (db.pfx ++ db.pkey) (_modeltimeline_subquery db fd) ∧
      substrOf (previewExpr db fd ++ " AS preview_") (_modeltimeline_subquery db fd) ∧
      substrOf ("FROM " ++ fd.modeltable_) (_modeltimeline_subquery db fd) ∧
      substrOf ("WHERE " ++ fd.columnname_ ++ " is not NULL") (_modeltimeline_subquery db fd) := by
  have hall : (l.all fun m => db.models.contains m) = true := by
    rw [List.all_eq_true]; intro x hx; simpa using hval x hx
  have hview := ctvBuild_view db (!st.inTx)
    ((dtFields db).filter (fun f => !l.contains f.modelname_))
    ((dFields db).filter (fun f => !l.contains f.modelname_))
    ⟨none, true, st.trace ++ [Stmt.dropTimelineView]⟩ hne
  refine ⟨?_, ?_, ?_⟩
  · simp only [create_timeline_view]
    rw [if_pos hall]
    exact hview.1
  · simp only [create_timeline_view]
    rw [if_pos hall]
    exact hview.2
  · intro fd _
    refine ⟨?_, ?_, ?_, ?_, ?_, ?_, ?_⟩
    · rw [subquery_parts]
      iterate 12 apply substrOf_right
      exact substrOf_left _ _ _ (substrOf_refl _)
    · rw [subquery_parts]
      iterate 10 apply substrOf_right
      exact substrOf_left _ _ _ (substrOf_refl _)
    · rw [subquery_parts]
      iterate 8 apply substrOf_right
      exact substrOf_left _ _ _ (substrOf_refl _)
    · rw [subquery_parts]
      iterate 6 apply substrOf_right
      exact substrOf_left _ _ _ (substrOf_refl _)
    · rw [subquery_parts]
      iterate 4 apply substrOf_right
      exact substrOf_left _ _ _ (substrOf_refl _)
    · rw [subquery_parts]
      iterate 2 apply substrOf_right
      exact substrOf_left _ _ _ (substrOf_refl _)
    · rw [subquery_parts]
      exact substrOf_left _ _ _ (substrOf_refl _)

/-- Witness for (amended) C5 at a concrete repository with one Datetime
field and an empty exclusion list. -/
theorem timeline_view_unions_one_subselect_witness :
    ((∀ m ∈ ([] : List String),
        m ∈ (⟨["m"], [⟨"m", "xm", "ts", "xts", some "Datetime", none⟩], "x", "id"⟩ :
          TimelineDB).models) ∧
     tlFields ⟨["m"], [⟨"m", "xm", "ts", "xts", some "Datetime", none⟩], "x", "id"⟩ [] ≠ []) ∧
    (create_timeline_view ⟨["m"], [⟨"m", "xm", "ts", "xts", some "Datetime", none⟩], "x", "id"⟩
       (some []) ⟨none, false, []⟩).1 = Except.ok () :=
  ⟨⟨fun m hm => absurd hm (List.not_mem_nil m), by decide⟩,
   (timeline_view_unions_one_subselect_per_temporal_field
      ⟨["m"], [⟨"m", "xm", "ts", "xts", some "Datetime", none⟩], "x", "id"⟩ [] ⟨none, false, []⟩
      (fun m hm => absurd hm (List.not_mem_nil m)) (by decide)).1⟩

/-- C6 counterexample: the source also drops columns whose `datatype_` is
NULL or empty (`datatype_ not in ['Bytes', None, '']`), so for a
preview-flagged column with a NULL datatype the generated `preview_` is
the empty string while the claim's reading would include the column. -/
theorem preview_filter_counterexample :
    previewExpr c6DB c6FD = "''" ∧
    claimPreviewExpr c6DB c6FD = "'other:' || COALESCE(CAST(xother AS TEXT),'')\n" ∧
    previewExpr c6DB c6FD ≠ claimPreviewExpr c6DB c6FD := by
  refine ⟨rfl, rfl, by decide⟩

/-- C6 as amended: in every timeline sub-select, `preview_` is the
`|`-joined concatenation of `'<fieldname>:' || COALESCE(CAST(<col> AS
TEXT),'')` over exactly those columns of the model whose datatype is not
`Bytes`, *not NULL and not empty*, and whose preview flag is set; when no
such column exists, `preview_` is the empty string literal. -/
theorem preview_joins_preview_flagged_nonbinary_columns (db : TimelineDB) (fd : FieldInfo) :
    previewColnames db fd = amendedPreviewColnames db fd ∧
    previewExpr db fd =
      (if amendedPreviewColnames db fd = [] then "''"
       else String.intercalate " || '|' || "
         ((amendedPreviewColnames db fd).map
           (fun c => "'" ++ c.1 ++ ":' || COALESCE(CAST(" ++ c.2 ++ " AS TEXT),'')\n"))) := by
  have hcols : previewColnames db fd = amendedPreviewColnames db fd := by
    simp only [previewColnames, amendedPreviewColnames]
    rw [List.filter_filter, List.filter_filter]
    congr 1
    apply List.filter_congr
    intro c _
    cases hdt : c.datatype_ with
    | none => simp [previewSet]
    | some s =>
      cases hp : c.preview_ with
      | none => simp [previewSet, hdt, hp]
      | some v =>
        simp only [previewSet, hdt, hp]
        cases hv : (v != 0) <;> cases h1 : (s == "Bytes") <;> cases h2 : (s == "") <;>
          cases h3 : (c.modeltable_ == fd.modeltable_) <;> simp [hv, h1, h2, h3]
  refine ⟨hcols, ?_⟩
  unfold previewExpr
  rw [hcols]
  rcases h : amendedPreviewColnames db fd with _ | ⟨a, as⟩ <;> simp [h]

/-! ## Claim theorems: transactions, reopen, timeline errors -/

/-- C3: on a handle with no active transaction, `begin_transaction` returns
true; while that transaction is active a further `begin_transaction`
returns false and leaves the state unchanged (so only the outer caller,
whose `begin_transaction` returned true, commits via `end_transaction`);
`rollback_transaction` returns whether a transaction was active and
restores the snapshotted store, so a second consecutive
`rollback_transaction` returns false. -/
theorem begin_once_then_false_rollback_reports_activity
    (st : DBState) (h : st.snapshot = none) :
    (begin_transaction st).1 = true ∧
    (begin_transaction (begin_transaction st).2).1 = false ∧
    (begin_transaction (begin_transaction st).2).2 = (begin_transaction st).2 ∧
    end_transaction (begin_transaction st).2 = { st with snapshot := none } ∧
    (rollback_transaction (begin_transaction st).2).1 = true ∧
    (rollback_transaction (begin_transaction st).2).2.store = st.store ∧
    (rollback_transaction (rollback_transaction (begin_transaction st).2).2).1 = false := by
  simp [begin_transaction, end_transaction, rollback_transaction, h]

/-- Witness for C3 at a concrete fresh handle. -/
theorem begin_once_then_false_rollback_reports_activity_witness :
    (⟨emptyStore, none⟩ : DBState).snapshot = none ∧
    ((begin_transaction ⟨emptyStore, none⟩).1 = true ∧
     (begin_transaction (begin_transaction ⟨emptyStore, none⟩).2).1 = false ∧
     (begin_transaction (begin_transaction ⟨emptyStore, none⟩).2).2 =
       (begin_transaction ⟨emptyStore, none⟩).2 ∧
     end_transaction (begin_transaction ⟨emptyStore, none⟩).2 =
       { (⟨emptyStore, none⟩ : DBState) with snapshot := none } ∧
     (rollback_transaction (begin_transaction ⟨emptyStore, none⟩).2).1 = true ∧
     (rollback_transaction (begin_transaction ⟨emptyStore, none⟩).2).2.store =
       (⟨emptyStore, none⟩ : DBState).store ∧
     (rollback_transaction (rollback_transaction (begin_transaction ⟨emptyStore, none⟩).2).2).1 =
       false) :=
  ⟨rfl, begin_once_then_false_rollback_reports_activity ⟨emptyStore, none⟩ rfl⟩

/-- C4: after `create → close → load` of the same repository file, the
handle's prefix is `x`, its pkey is `id`, its datatypes enumerate the ten
registry datatypes in order, and its tables enumerate the `_reserved_`
table, the five operational tables, and the three prefixed data tables. -/
theorem reopened_handle_prefix_pkey_datatypes_tables :
    (Database.load (Database.close Database.create.2)).pfx = "x" ∧
    (Database.load (Database.close Database.create.2)).pkey = "id" ∧
    (Database.load (Database.close Database.create.2)).datatypes =
      ["Datetime", "Date", "Integer", "String", "Bytes", "Bool", "TimeDelta", "Float",
       "NULL", "Data"] ∧
    (Database.load (Database.close Database.create.2)).tables =
      ["_reserved_", "_enum_", "_model_", "_field_", "_maptable_", "_proptable_",
       "xdata", "xblock", "xblockmap"] := by
  refine ⟨rfl, rfl, rfl, ?_⟩
  decide

/-- C7: an exclusion list that contains a name that is not a registered
model makes `timeline_fields` and `create_timeline_view` fail with the
`ValueError` about an invalid modelname. -/
theorem invalid_exclusion_raises_valueerror
    (db : TimelineDB) (l : List String) (m : String) (st : CTVState)
    (hmem : m ∈ l) (hnot : m ∉ db.models) :
    timeline_fields db (some l) = Except.error (DadbError.valueError invalidExclusionMsg) ∧
    (create_timeline_view db (some l) st).1 =
      Except.error (DadbError.valueError invalidExclusionMsg) := by
  have hneg : ¬ ∀ x ∈ l, x ∈ db.models := fun hfa => hnot (hfa m hmem)
  constructor
  · simp [timeline_fields]
    exact ⟨m, hmem, hnot⟩
  · simp [create_timeline_view]
    rw [if_neg hneg]

/-- Witness for C7: excluding `"b"` when only `"a"` is registered. -/
theorem invalid_exclusion_raises_valueerror_witness :
    ("b" ∈ ["b"] ∧ "b" ∉ (⟨["a"], [], "x", "id"⟩ : TimelineDB).models) ∧
    (timeline_fields ⟨["a"], [], "x", "id"⟩ (some ["b"]) =
       Except.error (DadbError.valueError invalidExclusionMsg) ∧
     (create_timeline_view ⟨["a"], [], "x", "id"⟩ (some ["b"]) ⟨none, false, []⟩).1 =
       Except.error (DadbError.valueError invalidExclusionMsg)) :=
  ⟨⟨by decide, by decide⟩,
   invalid_exclusion_raises_valueerror ⟨["a"], [], "x", "id"⟩ ["b"] "b" ⟨none, false, []⟩
     (by decide) (by decide)⟩

/-- C8 (code bug evidence): when `create_timeline_view` fails on an invalid
exclusion list, the source raises after `DROP VIEW` with no rollback, so
the error propagates while the transaction this call began is still open
and the previously existing `xTimeline_` view has been dropped in the
pending state — not rolled back as the spec requires. -/
theorem failed_create_timeline_view_leaves_transaction_open :
    (create_timeline_view c8DB (some ["nosuch"]) c8St).1 =
      Except.error (DadbError.valueError invalidExclusionMsg) ∧
    (create_timeline_view c8DB (some ["nosuch"]) c8St).2.inTx = true ∧
    (create_timeline_view c8DB (some ["nosuch"]) c8St).2.view = none ∧
    (create_timeline_view c8DB (some ["nosuch"]) c8St).2.trace = [Stmt.dropTimelineView] := by
  refine ⟨rfl, rfl, rfl, rfl⟩

/-- When no Datetime/Date field survives the (valid) exclusion list,
`create_timeline_view` drops the old view, creates nothing, and commits
only if it began the transaction itself. -/
lemma create_timeline_view_of_empty (db : TimelineDB) (excl : Option (List String))
    (st : CTVState) (hempty : timeline_fields db excl = Except.ok []) :
    create_timeline_view db excl st =
      (Except.ok (),
       { view := none, inTx := st.inTx,
         trace := st.trace ++ [Stmt.dropTimelineView] ++
           (if st.inTx then [] else [Stmt.commitTx]) }) := by
  cases excl with
  | none =>
    simp only [timeline_fields, Except.ok.injEq] at hempty
    have hdt : dtFields db = [] := (List.append_eq_nil.mp hempty).1
    have hd : dFields db = [] := (List.append_eq_nil.mp hempty).2
    simp only [create_timeline_view, hdt, hd, ctvBuild_nil]
    cases hst : st.inTx <;> simp [hst, List.append_assoc]
  | some l =>
    simp only [timeline_fields] at hempty
    simp only [create_timeline_view]
    by_cases hp : (l.all fun m => db.models.contains m) = true
    · rw [if_pos hp] at hempty
      rw [if_pos hp]
      have h2 := Except.ok.inj hempty
      have hdt := (List.append_eq_nil.mp h2).1
      have hd := (List.append_eq_nil.mp h2).2
      rw [hdt, hd, ctvBuild_nil]
      cases hst : st.inTx <;> simp [hst, List.append_assoc]
    · rw [if_neg hp] at hempty
      exact absurd hempty (by simp)

/-- C9: when the set of timeline sub-selects is empty (no registered model
has a Datetime or Date field, or all such models are excluded),
`create_timeline_view` succeeds, creates no `xTimeline_` view, and its
trace shows it executed no `CREATE VIEW` statement — only the drop and,
when it began the transaction, the commit. -/
theorem empty_union_creates_no_view (db : TimelineDB) (excl : Option (List String))
    (st : CTVState) (hempty : timeline_fields db excl = Except.ok []) :
    (create_timeline_view db excl st).1 = Except.ok () ∧
    (create_timeline_view db excl st).2.view = none ∧
    (create_timeline_view db excl st).2.trace =
      st.trace ++ [Stmt.dropTimelineView] ++ (if st.inTx then [] else [Stmt.commitTx]) := by
  rw [create_timeline_view_of_empty db excl st hempty]
  exact ⟨rfl, rfl, rfl⟩

/-- Witness for C9: a repository with one non-temporal field and an active
transaction. -/
theorem empty_union_creates_no_view_witness :
    (timeline_fields ⟨["m"], [⟨"m", "xm", "s", "xs", some "String", none⟩], "x", "id"⟩
        (some ["m"]) = Except.ok []) ∧
    ((create_timeline_view ⟨["m"], [⟨"m", "xm", "s", "xs", some "String", none⟩], "x", "id"⟩
        (some ["m"]) ⟨none, true, []⟩).1 = Except.ok () ∧
     (create_timeline_view ⟨["m"], [⟨"m", "xm", "s", "xs", some "String", none⟩], "x", "id"⟩
        (some ["m"]) ⟨none, true, []⟩).2.view = none ∧
     (create_timeline_view ⟨["m"], [⟨"m", "xm", "s", "xs", some "String", none⟩], "x", "id"⟩
        (some ["m"]) ⟨none, true, []⟩).2.trace =
       ([] : List Stmt) ++ [Stmt.dropTimelineView] ++
         (if (⟨none, true, []⟩ : CTVState).inTx then [] else [Stmt.commitTx])) :=
  ⟨by decide,
   empty_union_creates_no_view ⟨["m"], [⟨"m", "xm", "s", "xs", some "String", none⟩], "x", "id"⟩
     (some ["m"]) ⟨none, true, []⟩ (by decide)⟩

/-- C10: every such call drops the existing `xTimeline_` view first (the
first statement this call executes is the drop), so a call made when no
Datetime or Date field remains leaves the database with no `xTimeline_`
view even if one existed before the call. -/
theorem stale_timeline_view_is_dropped (db : TimelineDB) (excl : Option (List String))
    (st : CTVState) (hempty : timeline_fields db excl = Except.ok []) :
    (∃ rest, (create_timeline_view db excl st).2.trace =
       st.trace ++ Stmt.dropTimelineView :: rest) ∧
    (create_timeline_view db excl st).2.view = none := by
  rw [create_timeline_view_of_empty db excl st hempty]
  exact ⟨⟨if st.inTx then [] else [Stmt.commitTx], by simp⟩, rfl⟩

/-- Witness for C10: a repository with a previously existing view and no
temporal fields; the view is gone after the call. -/
theorem stale_timeline_view_is_dropped_witness :
    (timeline_fields ⟨[], [], "x", "id"⟩ none = Except.ok []) ∧
    ((∃ rest, (create_timeline_view ⟨[], [], "x", "id"⟩ none
        ⟨some "CREATE VIEW xTimeline_ AS previous", false, []⟩).2.trace =
          ([] : List Stmt) ++ Stmt.dropTimelineView :: rest) ∧
     (create_timeline_view ⟨[], [], "x", "id"⟩ none
        ⟨some "CREATE VIEW xTimeline_ AS previous", false, []⟩).2.view = none) :=
  ⟨by decide,
   stale_timeline_view_is_dropped ⟨[], [], "x", "id"⟩ none
     ⟨some "CREATE VIEW xTimeline_ AS previous", false, []⟩ (by decide)⟩

end Dadb
